import Mathlib

/-!
Shallow embedding of git-integrate (src/src/main.rs).

The program reads a label and a destination branch from the command line,
reads a GitHub token from git configuration, fetches, checks out a fresh
destination branch from origin/master, resolves the branches of open pull
requests carrying the label through the GitHub GraphQL API, and merges them
in order, classifying each merge failure by inspecting repository status.

External effects (argument list, configuration lookup, subprocess exit
statuses, the network response, libgit2 status queries) are supplied through
an explicit `Inputs` structure; the run is modelled as a function from
`Inputs` to the trace of external calls performed plus the process outcome.
An `Option Bool` models Rust's `io::Result<ExitStatus>`: `none` is an io
error (the surrounding `expect` panics), `some b` is an exit status whose
`success()` is `b`.
-/

namespace GitIntegrate

/-- Repository identity, from `git_extras::Repo { owner, name }`. -/
structure Repo where
  owner : String
  name : String
deriving Repr, DecidableEq

/-- A pull-request node of the GraphQL response: `head_ref_name: String`. -/
structure PRNode where
  head_ref_name : String
deriving Repr, DecidableEq

/-- `pull_requests` connection: `nodes: Option<Vec<Option<Node>>>`. -/
structure PullRequests where
  nodes : Option (List (Option PRNode))
deriving Repr, DecidableEq

/-- The repository object of the response, with its `pull_requests`. -/
structure RepositoryData where
  pull_requests : PullRequests
deriving Repr, DecidableEq

/-- `ResponseData { repository: Option<...> }`. -/
structure ResponseData where
  repository : Option RepositoryData
deriving Repr, DecidableEq

/-- `graphql_client::Response { data: Option<ResponseData> }`. -/
structure ApiResponse where
  data : Option ResponseData
deriving Repr, DecidableEq

/-- How the process terminates: `process::exit(code)`, or a Rust panic. -/
inductive Outcome where
  | exited (code : Nat)
  | panicked (msg : String)
deriving Repr, DecidableEq

/-- The operating-system exit status of an `Outcome`.  A Rust panic unwinds
out of `main` and the runtime terminates the process with status 101. -/
def Outcome.exitCode : Outcome → Nat
  | .exited c => c
  | .panicked _ => 101

/-- One observable external call of the program:
`cmd args` is a `git` subprocess invocation with the given argument list,
`statuses` is the libgit2 `repository.statuses(None)` query,
`netResolve` is the single GraphQL network call of `branches`,
`print msg` is a `println!`. -/
inductive Event where
  | cmd (args : List String)
  | statuses
  | netResolve
  | print (msg : String)
deriving Repr, DecidableEq

/-- Argument list of `git_fetch`: `git fetch --all`. -/
def git_fetch : List String := ["fetch", "--all"]

/-- Argument list of `git_checkout`:
`git checkout --no-track -B <branch> origin/master`. -/
def git_checkout (branch : String) : List String :=
  ["checkout", "--no-track", "-B", branch, "origin/master"]

/-- Argument list of `git_merge`:
`git merge --no-ff --no-edit --rerere-autoupdate --log origin/<branch>`. -/
def git_merge (branch : String) : List String :=
  ["merge", "--no-ff", "--no-edit", "--rerere-autoupdate", "--log",
   "origin/" ++ branch]

/-- Argument list of `git_commit`: `git commit --no-edit`. -/
def git_commit : List String := ["commit", "--no-edit"]

/-- `git2::Status::CONFLICTED` = `GIT_STATUS_CONFLICTED` = 1 <<< 15.
A path's status is a bitmask of such flags. -/
def STATUS_CONFLICTED : Nat := 32768

/-- The per-entry test of `merge_branch`: `s.status() == Status::CONFLICTED`,
an exact bitflag equality, not a bit test. -/
def isConflicted (s : Nat) : Bool := s == STATUS_CONFLICTED

/-- The conflict guidance printed by `merge_branch` (the Rust literal, with
its `\` line continuations resolved). -/
def conflictGuidance : String :=
  "\nMerge conflict detected, either fix the conflict and \nuse `git commit --no-edit` commit this merge or use \n`git merge --abort` to quit this merge"

/-- Results of the git subprocess calls and status queries, indexed for the
per-branch calls by the position of the branch in the merge loop.
`none` models an `io::Result` error (`expect` panics);
`some b` models an exit status with `success() = b`. -/
structure GitWorld where
  fetch : Option Bool
  checkout : Option Bool
  merge : Nat → Option Bool
  statuses : Nat → Option (List Nat)
  commit : Nat → Option Bool

/-- All external inputs of one run. `args` is `env::args().skip(1)`.
`currentDirOk`, `discoverOk`, `remoteOk` model `env::current_dir`,
`Repository::discover` and `find_remote("origin")` (failure panics);
`repoInfo` is `Repo::new(&remote)`; `configOpenOk` is
`Config::open_default`; `configToken` is
`config.get_string("integrate.github-token")`; `net` is the combined
result of the `reqwest` send and JSON decode inside `branches`. -/
structure Inputs where
  args : List String
  currentDirOk : Bool
  discoverOk : Bool
  remoteOk : Bool
  repoInfo : Option Repo
  configOpenOk : Bool
  configToken : Option String
  net : Except String ApiResponse
  git : GitWorld

/-- The pure extraction done on a decoded response inside `branches`:
`response.data.and_then(repository).and_then(pull_requests.nodes)
.unwrap_or(vec![]).iter().cloned().filter_map(|x| x.map(|y| y.head_ref_name))`. -/
def branchesOf (response : ApiResponse) : List String :=
  ((((response.data.bind fun x => x.repository).bind
      fun x => x.pull_requests.nodes).getD []).filterMap
    fun x => x.map fun y => y.head_ref_name)

/-- `fn branches(...) -> Result<Vec<String>, reqwest::Error>`: a transport
or decode error is returned as `Err`; otherwise the extraction above. -/
def branches : Except String ApiResponse → Except String (List String)
  | .error e => .error e
  | .ok response => .ok (branchesOf response)

/-- `fn merge_branch(branch, repository)` at loop position `i`: runs
`git_merge`; on failure queries `repository.statuses`, and either prints the
conflict guidance and exits 1, or falls through to `git_commit`, exiting 1
with a message naming the branch if that also fails.  Returns the events it
performs and `some o` when it terminates the process with outcome `o`. -/
def merge_branch (w : GitWorld) (i : Nat) (branch : String) :
    List Event × Option Outcome :=
  match w.merge i with
  | none =>
      ([.cmd (git_merge branch)],
       some (.panicked ("Failure merging branch " ++ branch)))
  | some true => ([.cmd (git_merge branch)], none)
  | some false =>
      match w.statuses i with
      | none =>
          ([.cmd (git_merge branch), .statuses],
           some (.panicked "Error checking dirty repository"))
      | some l =>
          if l.any isConflicted then
            ([.cmd (git_merge branch), .statuses, .print conflictGuidance],
             some (.exited 1))
          else
            match w.commit i with
            | none =>
                ([.cmd (git_merge branch), .statuses, .cmd git_commit],
                 some (.panicked ("Failure merging branch " ++ branch)))
            | some true =>
                ([.cmd (git_merge branch), .statuses, .cmd git_commit], none)
            | some false =>
                ([.cmd (git_merge branch), .statuses, .cmd git_commit,
                  .print ("Failure mergeing branch " ++ branch)],
                 some (.exited 1))

/-- The `for branch in branches` loop of `main`: prints "Merging <branch>"
and runs `merge_branch` for each branch in order; falling off the end of
`main` exits the process with status 0. -/
def mergeLoop (w : GitWorld) : Nat → List String → List Event × Outcome
  | _, [] => ([], .exited 0)
  | i, b :: rest =>
      match merge_branch w i b with
      | (evs, some o) => (.print ("\nMerging " ++ b) :: evs, o)
      | (evs, none) =>
          let r := mergeLoop w (i + 1) rest
          (.print ("\nMerging " ++ b) :: evs ++ r.1, r.2)

/-- `fn main()`: argument parsing, repository and configuration lookups
(each failure panics), then fetch, checkout of the destination branch,
branch resolution, and the merge loop. -/
def main (inp : Inputs) : List Event × Outcome :=
  match inp.args with
  | [] => ([], .panicked "No github label provided")
  | [_] => ([], .panicked "No branch provided")
  | _label :: dest_branch :: _ =>
      if inp.currentDirOk = false then ([], .panicked "current_dir error")
      else if inp.discoverOk = false then ([], .panicked "discover error")
      else if inp.remoteOk = false then ([], .panicked "find_remote error")
      else
        match inp.repoInfo with
        | none => ([], .panicked "Could not build remote info")
        | some _repo =>
            if inp.configOpenOk = false then
              ([], .panicked "Could not find a git configuration file!")
            else
              match inp.configToken with
              | none =>
                  ([], .panicked
                    "Could not find integrate.github-token in any git configuration file!")
              | some _token =>
                  match inp.git.fetch with
                  | none => ([.cmd git_fetch], .panicked "Error fetching from remote")
                  | some false => ([.cmd git_fetch], .exited 1)
                  | some true =>
                      match inp.git.checkout with
                      | none =>
                          ([.cmd git_fetch, .cmd (git_checkout dest_branch)],
                           .panicked ("Could not checkout branch " ++ dest_branch))
                      | some false =>
                          ([.cmd git_fetch, .cmd (git_checkout dest_branch)],
                           .exited 1)
                      | some true =>
                          match branches inp.net with
                          | .error e =>
                              ([.cmd git_fetch, .cmd (git_checkout dest_branch),
                                .netResolve],
                               .panicked e)
                          | .ok brs =>
                              let r := mergeLoop inp.git 0 brs
                              ([.cmd git_fetch, .cmd (git_checkout dest_branch),
                                .netResolve] ++ r.1,
                               r.2)

/-- The remote ref merged by a `git merge` invocation, if the event is one. -/
def mergeRef : Event → Option String
  | .cmd ["merge", "--no-ff", "--no-edit", "--rerere-autoupdate", "--log", r] =>
      some r
  | _ => none

/-- Is the event the GraphQL resolution call? -/
def isResolveEvent : Event → Bool
  | .netResolve => true
  | _ => false

/-- The lookups preceding the network credential check all succeed. -/
def EnvOk (inp : Inputs) : Prop :=
  inp.currentDirOk = true ∧ inp.discoverOk = true ∧ inp.remoteOk = true ∧
  inp.repoInfo.isSome = true ∧ inp.configOpenOk = true

/-- The run reaches the fetch step: lookups succeed and a token is present. -/
def SetupOk (inp : Inputs) : Prop :=
  EnvOk inp ∧ inp.configToken.isSome = true

/-- A sample repository identity, for concrete runs. -/
def sampleRepo : Repo := ⟨"owner", "name"⟩

/-- A response whose repository has the given pull-request nodes. -/
def respOf (ns : List (Option PRNode)) : ApiResponse :=
  ⟨some ⟨some ⟨⟨some ns⟩⟩⟩⟩

/-- A response whose `repository` field is null. -/
def respNoRepo : ApiResponse := ⟨some ⟨none⟩⟩

/-- Concrete inputs with successful lookups, a token, and the given
argument list, network result and git world. -/
def mkInputs (args : List String) (net : Except String ApiResponse)
    (g : GitWorld) : Inputs :=
  ⟨args, true, true, true, some sampleRepo, true, some "token", net, g⟩

/-- A git world where every call succeeds. -/
def okGit : GitWorld :=
  ⟨some true, some true, fun _ => some true, fun _ => some [], fun _ => some true⟩

/-- A git world whose merges fail leaving a conflicted path. -/
def conflictGit : GitWorld :=
  ⟨some true, some true, fun _ => some false,
   fun _ => some [STATUS_CONFLICTED], fun _ => some true⟩

/-- A git world whose merges fail without conflicted paths (one path is
modified in the worktree, flag 256) and whose finalizing commits succeed. -/
def noConflictGit : GitWorld :=
  ⟨some true, some true, fun _ => some false, fun _ => some [256],
   fun _ => some true⟩

/-- A git world whose merges fail with a path carrying the CONFLICTED flag
combined with the WT_MODIFIED flag (256), and whose commits succeed. -/
def mixedFlagGit : GitWorld :=
  ⟨some true, some true, fun _ => some false,
   fun _ => some [STATUS_CONFLICTED + 256], fun _ => some true⟩

/-- A git world whose checkout fails. -/
def checkoutFailGit : GitWorld :=
  ⟨some true, some false, fun _ => some true, fun _ => some [],
   fun _ => some true⟩

/-- A git world whose fetch fails. -/
def fetchFailGit : GitWorld :=
  ⟨some false, some true, fun _ => some true, fun _ => some [],
   fun _ => some true⟩

/-- Inputs with no command-line arguments at all. -/
def inpNoArgs : Inputs :=
  ⟨[], true, true, true, some sampleRepo, true, some "token",
   .ok respNoRepo, okGit⟩

/-- Inputs whose configuration has no `integrate.github-token` key. -/
def inpNoToken : Inputs :=
  ⟨["ready", "release"], true, true, true, some sampleRepo, true, none,
   .ok respNoRepo, okGit⟩

/-- Each call to `merge_branch` invokes `git merge` on exactly
`origin/<branch>`, once. -/
lemma merge_branch_mergeRef (w : GitWorld) (i : Nat) (b : String) :
    (merge_branch w i b).1.filterMap mergeRef = ["origin/" ++ b] := by
  unfold merge_branch
  cases w.merge i with
  | none => rfl
  | some mb =>
      cases mb with
      | true => rfl
      | false =>
          cases w.statuses i with
          | none => rfl
          | some l =>
              by_cases h : l.any isConflicted = true
              · simp only [h, if_true]
                rfl
              · rw [Bool.not_eq_true] at h
                simp only [h]
                cases w.commit i with
                | none => rfl
                | some cb => cases cb <;> rfl

/-- `merge_branch` never performs the network resolution call. -/
lemma merge_branch_no_resolve (w : GitWorld) (i : Nat) (b : String) :
    (merge_branch w i b).1.countP isResolveEvent = 0 := by
  unfold merge_branch
  cases w.merge i with
  | none => rfl
  | some mb =>
      cases mb with
      | true => rfl
      | false =>
          cases w.statuses i with
          | none => rfl
          | some l =>
              by_cases h : l.any isConflicted = true
              · simp only [h, if_true]
                rfl
              · rw [Bool.not_eq_true] at h
                simp only [h]
                cases w.commit i with
                | none => rfl
                | some cb => cases cb <;> rfl

/-- A `merge_branch` call that returns (rather than exiting the process)
unfolds the loop one step. -/
lemma mergeLoop_cons_cont (w : GitWorld) (i : Nat) (b : String)
    (rest : List String) (evs : List Event)
    (h : merge_branch w i b = (evs, none)) :
    mergeLoop w i (b :: rest) =
      (.print ("\nMerging " ++ b) :: evs ++ (mergeLoop w (i + 1) rest).1,
       (mergeLoop w (i + 1) rest).2) := by
  simp only [mergeLoop]
  rw [h]

/-- A `merge_branch` call that terminates the process ends the loop. -/
lemma mergeLoop_cons_halt (w : GitWorld) (i : Nat) (b : String)
    (rest : List String) (evs : List Event) (o : Outcome)
    (h : merge_branch w i b = (evs, some o)) :
    mergeLoop w i (b :: rest) = (.print ("\nMerging " ++ b) :: evs, o) := by
  simp only [mergeLoop]
  rw [h]

/-- The merge loop never performs the network resolution call. -/
lemma mergeLoop_no_resolve (w : GitWorld) (bs : List String) :
    ∀ i, (mergeLoop w i bs).1.countP isResolveEvent = 0 := by
  induction bs with
  | nil => intro i; rfl
  | cons b rest ih =>
      intro i
      rcases hmb : merge_branch w i b with ⟨evs, o⟩
      have hevs : evs.countP isResolveEvent = 0 := by
        have h2 := merge_branch_no_resolve w i b
        rw [hmb] at h2
        exact h2
      cases o with
      | some o =>
          rw [mergeLoop_cons_halt w i b rest evs o hmb]
          simpa [List.countP_cons, isResolveEvent] using hevs
      | none =>
          rw [mergeLoop_cons_cont w i b rest evs hmb]
          simp [List.countP_cons, List.countP_append, hevs, ih (i + 1),
            isResolveEvent]

/-- Splitting the merge loop over a prefix of branches whose `merge_branch`
calls all return: the loop runs them in order and continues with the rest,
and the `git merge` invocations of the prefix are exactly `origin/<b>` for
the prefix branches, in order. -/
lemma mergeLoop_split (w : GitWorld) (pre : List String) :
    ∀ (i : Nat) (rest : List String),
    (∀ j bj, pre.get? j = some bj → (merge_branch w (i + j) bj).2 = none) →
    ∃ evs,
      mergeLoop w i (pre ++ rest) =
        (evs ++ (mergeLoop w (i + pre.length) rest).1,
         (mergeLoop w (i + pre.length) rest).2) ∧
      evs.filterMap mergeRef = pre.map (fun b => "origin/" ++ b) := by
  induction pre with
  | nil => exact fun i rest _ => ⟨[], by simp, rfl⟩
  | cons b pre ih =>
      intro i rest h
      have hb0 : (merge_branch w i b).2 = none := by
        have h0 := h 0 b rfl
        simpa using h0
      have ho : merge_branch w i b = ((merge_branch w i b).1, none) := by
        rw [← hb0]
      have hrest : ∀ j bj, pre.get? j = some bj →
          (merge_branch w (i + 1 + j) bj).2 = none := by
        intro j bj hj
        have hjj := h (j + 1) bj (by simpa using hj)
        have e : i + (j + 1) = i + 1 + j := by omega
        rw [e] at hjj
        exact hjj
      obtain ⟨evs, heq, hmr⟩ := ih (i + 1) rest hrest
      refine ⟨.print ("\nMerging " ++ b) :: (merge_branch w i b).1 ++ evs,
        ?_, ?_⟩
      · have hlen : i + 1 + pre.length = i + (b :: pre).length := by
          simp only [List.length_cons]
          omega
        rw [List.cons_append,
          mergeLoop_cons_cont w i b (pre ++ rest) (merge_branch w i b).1 ho,
          heq, hlen]
        simp [List.append_assoc]
      · have h1 := merge_branch_mergeRef w i b
        simp only [List.cons_append, List.filterMap_cons, List.filterMap_append,
          mergeRef, h1, hmr, List.map_cons]
        simp

/-- Unfolding `main` when the run reaches the merge loop. -/
lemma main_eq_loop (inp : Inputs) (label dest : String) (r : List String)
    (resp : ApiResponse)
    (hargs : inp.args = label :: dest :: r) (henv : EnvOk inp)
    (htok : inp.configToken.isSome = true)
    (hf : inp.git.fetch = some true) (hc : inp.git.checkout = some true)
    (hnet : inp.net = .ok resp) :
    main inp =
      ([.cmd git_fetch, .cmd (git_checkout dest), .netResolve]
         ++ (mergeLoop inp.git 0 (branchesOf resp)).1,
       (mergeLoop inp.git 0 (branchesOf resp)).2) := by
  obtain ⟨h1, h2, h3, h4, h5⟩ := henv
  obtain ⟨repo, hrepo⟩ := Option.isSome_iff_exists.mp h4
  obtain ⟨tok, htok2⟩ := Option.isSome_iff_exists.mp htok
  unfold main
  rw [hargs]
  simp [h1, h2, h3, hrepo, h5, htok2, hf, hc, hnet, branches]

/-- `main` with an empty argument list panics at once. -/
lemma main_no_args (inp : Inputs) (h : inp.args = []) :
    main inp = ([], .panicked "No github label provided") := by
  unfold main
  rw [h]

/-- `main` with a single argument panics at once. -/
lemma main_one_arg (inp : Inputs) (a : String) (h : inp.args = [a]) :
    main inp = ([], .panicked "No branch provided") := by
  unfold main
  rw [h]

/-- `main` with a missing token panics before any external call. -/
lemma main_no_token (inp : Inputs) (label dest : String) (r : List String)
    (hargs : inp.args = label :: dest :: r) (henv : EnvOk inp)
    (hnone : inp.configToken = none) :
    main inp = ([],
      .panicked
        "Could not find integrate.github-token in any git configuration file!") := by
  obtain ⟨h1, h2, h3, h4, h5⟩ := henv
  obtain ⟨repo, hrepo⟩ := Option.isSome_iff_exists.mp h4
  unfold main
  rw [hargs]
  simp [h1, h2, h3, hrepo, h5, hnone]

/-- `main` when the fetch reports failure: exit 1 after the fetch alone. -/
lemma main_fetch_fail (inp : Inputs) (label dest : String) (r : List String)
    (hargs : inp.args = label :: dest :: r) (henv : EnvOk inp)
    (htok : inp.configToken.isSome = true)
    (hf : inp.git.fetch = some false) :
    main inp = ([.cmd git_fetch], .exited 1) := by
  obtain ⟨h1, h2, h3, h4, h5⟩ := henv
  obtain ⟨repo, hrepo⟩ := Option.isSome_iff_exists.mp h4
  obtain ⟨tok, htok2⟩ := Option.isSome_iff_exists.mp htok
  unfold main
  rw [hargs]
  simp [h1, h2, h3, hrepo, h5, htok2, hf]

/-- `main` when the checkout reports failure: exit 1 after fetch and
checkout, with no resolution and no merge. -/
lemma main_checkout_fail (inp : Inputs) (label dest : String)
    (r : List String)
    (hargs : inp.args = label :: dest :: r) (henv : EnvOk inp)
    (htok : inp.configToken.isSome = true)
    (hf : inp.git.fetch = some true) (hc : inp.git.checkout = some false) :
    main inp = ([.cmd git_fetch, .cmd (git_checkout dest)], .exited 1) := by
  obtain ⟨h1, h2, h3, h4, h5⟩ := henv
  obtain ⟨repo, hrepo⟩ := Option.isSome_iff_exists.mp h4
  obtain ⟨tok, htok2⟩ := Option.isSome_iff_exists.mp htok
  unfold main
  rw [hargs]
  simp [h1, h2, h3, hrepo, h5, htok2, hf, hc]

/-- `main` when the network call or decode fails: the resolver error is
panicked after fetch, checkout and the one resolution call. -/
lemma main_net_error (inp : Inputs) (label dest : String) (r : List String)
    (e : String)
    (hargs : inp.args = label :: dest :: r) (henv : EnvOk inp)
    (htok : inp.configToken.isSome = true)
    (hf : inp.git.fetch = some true) (hc : inp.git.checkout = some true)
    (hnet : inp.net = .error e) :
    main inp = ([.cmd git_fetch, .cmd (git_checkout dest), .netResolve],
      .panicked e) := by
  obtain ⟨h1, h2, h3, h4, h5⟩ := henv
  obtain ⟨repo, hrepo⟩ := Option.isSome_iff_exists.mp h4
  obtain ⟨tok, htok2⟩ := Option.isSome_iff_exists.mp htok
  unfold main
  rw [hargs]
  simp [h1, h2, h3, hrepo, h5, htok2, hf, hc, hnet, branches]

/-- Every run's trace takes one of four shapes: nothing, fetch only,
fetch then checkout, or fetch, checkout, the single resolution call and
then resolution-free loop events. -/
lemma main_shape (inp : Inputs) :
    (main inp).1 = [] ∨ (main inp).1 = [.cmd git_fetch] ∨
    (∃ label dest r, inp.args = label :: dest :: r ∧
      (main inp).1 = [.cmd git_fetch, .cmd (git_checkout dest)]) ∨
    (∃ label dest r levs, inp.args = label :: dest :: r ∧
      (main inp).1 =
        [.cmd git_fetch, .cmd (git_checkout dest), .netResolve] ++ levs ∧
      levs.countP isResolveEvent = 0) := by
  rcases hargs : inp.args with _ | ⟨a, _ | ⟨d, r⟩⟩
  · left
    simp [main_no_args inp hargs]
  · left
    simp [main_one_arg inp a hargs]
  · by_cases h1 : inp.currentDirOk = true
    case neg =>
      left
      unfold main
      rw [hargs]
      simp [eq_false_of_ne_true h1]
    by_cases h2 : inp.discoverOk = true
    case neg =>
      left
      unfold main
      rw [hargs]
      simp [h1, eq_false_of_ne_true h2]
    by_cases h3 : inp.remoteOk = true
    case neg =>
      left
      unfold main
      rw [hargs]
      simp [h1, h2, eq_false_of_ne_true h3]
    rcases hrepo : inp.repoInfo with _ | repo
    · left
      unfold main
      rw [hargs]
      simp [h1, h2, h3, hrepo]
    by_cases h5 : inp.configOpenOk = true
    case neg =>
      left
      unfold main
      rw [hargs]
      simp [h1, h2, h3, hrepo, eq_false_of_ne_true h5]
    have henv : EnvOk inp := ⟨h1, h2, h3, by simp [hrepo], h5⟩
    rcases htok : inp.configToken with _ | tok
    · left
      simp [main_no_token inp a d r hargs henv htok]
    have htokS : inp.configToken.isSome = true := by simp [htok]
    rcases hf : inp.git.fetch with _ | fb
    · right; left
      unfold main
      rw [hargs]
      simp [h1, h2, h3, hrepo, h5, htok, hf]
    cases fb
    · right; left
      simp [main_fetch_fail inp a d r hargs henv htokS hf]
    rcases hc : inp.git.checkout with _ | cb
    · right; right; left
      refine ⟨a, d, r, rfl, ?_⟩
      unfold main
      rw [hargs]
      simp [h1, h2, h3, hrepo, h5, htok, hf, hc]
    cases cb
    · right; right; left
      exact ⟨a, d, r, rfl,
        by simp [main_checkout_fail inp a d r hargs henv htokS hf hc]⟩
    rcases hnet : inp.net with e | resp
    · right; right; right
      exact ⟨a, d, r, [], rfl,
        by simp [main_net_error inp a d r e hargs henv htokS hf hc hnet], rfl⟩
    right; right; right
    refine ⟨a, d, r, (mergeLoop inp.git 0 (branchesOf resp)).1, rfl,
      by simp [main_eq_loop inp a d r resp hargs henv htokS hf hc hnet],
      mergeLoop_no_resolve inp.git (branchesOf resp) 0⟩

/-- Dropping the `None` entries commutes with extracting the head branch
names: `filter_map(|x| x.map(f))` keeps exactly the `Some` entries, mapped. -/
lemma filterMap_map_eq (f : PRNode → String) (ns : List (Option PRNode)) :
    ns.filterMap (fun x => x.map f) = (ns.filterMap id).map f := by
  induction ns with
  | nil => rfl
  | cons a l ih => cases a <;> simp [ih]

/-- The commit-failure message can never coincide with the conflict
guidance (their first characters differ). -/
lemma failure_msg_ne_guidance (b : String) :
    ("Failure mergeing branch " ++ b) ≠ conflictGuidance := by
  intro h
  have h2 : ("Failure mergeing branch " ++ b).data.head? =
      conflictGuidance.data.head? := by rw [h]
  have h3 : (some 'F' : Option Char) = some '\n' := h2
  exact absurd h3 (by decide)

/-- The per-branch progress message can never coincide with the conflict
guidance (they differ at their sixth character). -/
lemma merging_msg_ne_guidance (b : String) :
    ("\nMerging " ++ b) ≠ conflictGuidance := by
  intro h
  have h2 : ("\nMerging " ++ b).data.get? 5 =
      conflictGuidance.data.get? 5 := by rw [h]
  have h3 : (some 'i' : Option Char) = some 'e' := h2
  exact absurd h3 (by decide)

/-- The `git merge` invocations of a full merge loop, in order, are a
prefix of `origin/<b>` over the branch sequence. -/
lemma mergeLoop_mergeRef_prefix (w : GitWorld) (bs : List String) :
    ∀ i, ∃ t, bs.map (fun b => "origin/" ++ b) =
      (mergeLoop w i bs).1.filterMap mergeRef ++ t := by
  induction bs with
  | nil => exact fun i => ⟨[], rfl⟩
  | cons b rest ih =>
      intro i
      rcases hmb : merge_branch w i b with ⟨evs, o⟩
      have hevs : evs.filterMap mergeRef = ["origin/" ++ b] := by
        have h2 := merge_branch_mergeRef w i b
        rw [hmb] at h2
        exact h2
      cases o with
      | some o =>
          rw [mergeLoop_cons_halt w i b rest evs o hmb]
          exact ⟨rest.map (fun b => "origin/" ++ b),
            by simp [List.filterMap_cons, mergeRef, hevs]⟩
      | none =>
          rw [mergeLoop_cons_cont w i b rest evs hmb]
          obtain ⟨t, ht⟩ := ih (i + 1)
          exact ⟨t, by
            simp [List.filterMap_cons, List.filterMap_append, mergeRef,
              hevs, ht]⟩

/-- When every `merge_branch` call returns, the loop merges exactly the
whole branch sequence, in order, duplicates included. -/
lemma mergeLoop_mergeRef_all (w : GitWorld) (bs : List String) (i : Nat)
    (h : ∀ j bj, bs.get? j = some bj → (merge_branch w (i + j) bj).2 = none) :
    (mergeLoop w i bs).1.filterMap mergeRef =
      bs.map (fun b => "origin/" ++ b) := by
  obtain ⟨evs, heq, hmr⟩ := mergeLoop_split w bs i [] h
  rw [List.append_nil] at heq
  have hnil : mergeLoop w (i + bs.length) [] = ([], .exited 0) := rfl
  rw [hnil] at heq
  simp only [List.append_nil] at heq
  rw [heq]
  simpa using hmr

/-- The three events preceding the loop carry no `git merge` invocation. -/
lemma filterMap_mergeRef_header (dest : String) (l : List Event) :
    ([Event.cmd git_fetch, .cmd (git_checkout dest), .netResolve] ++ l).filterMap
        mergeRef = l.filterMap mergeRef := rfl

/-- C3: when the repository is absent from the response, or the label
matches zero pull requests, resolution succeeds with the empty sequence and
the run completes with success status after the fetch and checkout, with
zero merge attempts. -/
theorem c3_empty_sequence_success (inp : Inputs) (label dest : String)
    (r : List String) (resp : ApiResponse)
    (hargs : inp.args = label :: dest :: r) (henv : EnvOk inp)
    (htok : inp.configToken.isSome = true)
    (hf : inp.git.fetch = some true) (hc : inp.git.checkout = some true)
    (hnet : inp.net = .ok resp)
    (hempty : (resp.data.bind fun x => x.repository) = none ∨
      ((resp.data.bind fun x => x.repository).bind
        fun x => x.pull_requests.nodes) = some []) :
    branches inp.net = .ok [] ∧
    main inp = ([.cmd git_fetch, .cmd (git_checkout dest), .netResolve],
      .exited 0) := by
  have hb : branchesOf resp = [] := by
    rcases hempty with h | h
    · simp [branchesOf, h]
    · simp [branchesOf, h]
  constructor
  · rw [hnet]
    simp [branches, hb]
  · rw [main_eq_loop inp label dest r resp hargs henv htok hf hc hnet, hb]
    rfl

/-- Witness for C3 at a concrete response whose repository is null. -/
theorem c3_witness :
    branches (mkInputs ["ready", "release"] (.ok respNoRepo) okGit).net =
      .ok [] ∧
    main (mkInputs ["ready", "release"] (.ok respNoRepo) okGit) =
      ([.cmd git_fetch, .cmd (git_checkout "release"), .netResolve],
       .exited 0) := by
  have h := c3_empty_sequence_success
    (mkInputs ["ready", "release"] (.ok respNoRepo) okGit)
    "ready" "release" [] respNoRepo rfl ⟨rfl, rfl, rfl, rfl, rfl⟩ rfl
    rfl rfl rfl (Or.inl rfl)
  exact h

/-- C4: pull-request entries without a resolvable head branch name are
excluded from the resolved sequence without a resolution error; all other
entries' head branch names are kept (in order). -/
theorem c4_missing_head_ref_skipped (resp : ApiResponse) (d : ResponseData)
    (rd : RepositoryData) (ns : List (Option PRNode))
    (hd : resp.data = some d) (hr : d.repository = some rd)
    (hn : rd.pull_requests.nodes = some ns) :
    branches (.ok resp) =
      .ok ((ns.filterMap id).map fun y => y.head_ref_name) := by
  simp [branches, branchesOf, hd, hr, hn, filterMap_map_eq]

/-- Witness for C4: a null entry between two real pull requests is skipped
and both head names are kept. -/
theorem c4_witness :
    branches (.ok (respOf [some ⟨"feature-a"⟩, none, some ⟨"feature-b"⟩])) =
      .ok ((([some ⟨"feature-a"⟩, none, some ⟨"feature-b"⟩] :
          List (Option PRNode)).filterMap id).map
        fun y => y.head_ref_name) ∧
    branches (.ok (respOf [some ⟨"feature-a"⟩, none, some ⟨"feature-b"⟩])) =
      .ok ["feature-a", "feature-b"] :=
  ⟨c4_missing_head_ref_skipped _ _ _ _ rfl rfl rfl, rfl⟩

/-- C5: the merges attempted by the run are exactly `origin/<b>` for the
branches of the resolved sequence, in the resolver's order — always a
prefix of it (fail-fast), and all of it, duplicates included, when every
per-branch step returns. -/
theorem c5_order_preserved (inp : Inputs) (label dest : String)
    (r : List String) (resp : ApiResponse) (brs : List String)
    (hargs : inp.args = label :: dest :: r) (henv : EnvOk inp)
    (htok : inp.configToken.isSome = true)
    (hf : inp.git.fetch = some true) (hc : inp.git.checkout = some true)
    (hnet : inp.net = .ok resp) (hbrs : branchesOf resp = brs) :
    (∃ t, brs.map (fun b => "origin/" ++ b) =
      (main inp).1.filterMap mergeRef ++ t) ∧
    ((∀ j bj, brs.get? j = some bj →
        (merge_branch inp.git j bj).2 = none) →
      (main inp).1.filterMap mergeRef =
        brs.map (fun b => "origin/" ++ b)) := by
  rw [main_eq_loop inp label dest r resp hargs henv htok hf hc hnet, hbrs]
  constructor
  · rw [filterMap_mergeRef_header]
    exact mergeLoop_mergeRef_prefix inp.git brs 0
  · intro h
    rw [filterMap_mergeRef_header]
    refine mergeLoop_mergeRef_all inp.git brs 0 ?_
    intro j bj hj
    simpa using h j bj hj

/-- Witness for C5: a sequence with a repeated branch name is merged as
given — twice `origin/feature-a`, then `origin/feature-b`. -/
theorem c5_witness :
    (∃ t, (["feature-a", "feature-a", "feature-b"].map
        (fun b => "origin/" ++ b)) =
      (main (mkInputs ["ready", "release"]
        (.ok (respOf [some ⟨"feature-a"⟩, some ⟨"feature-a"⟩,
          some ⟨"feature-b"⟩])) okGit)).1.filterMap mergeRef ++ t) ∧
    (main (mkInputs ["ready", "release"]
        (.ok (respOf [some ⟨"feature-a"⟩, some ⟨"feature-a"⟩,
          some ⟨"feature-b"⟩])) okGit)).1.filterMap mergeRef =
      ["origin/feature-a", "origin/feature-a", "origin/feature-b"] := by
  have h := c5_order_preserved
    (mkInputs ["ready", "release"]
      (.ok (respOf [some ⟨"feature-a"⟩, some ⟨"feature-a"⟩,
        some ⟨"feature-b"⟩])) okGit)
    "ready" "release" [] _ ["feature-a", "feature-a", "feature-b"]
    rfl ⟨rfl, rfl, rfl, rfl, rfl⟩ rfl rfl rfl rfl rfl
  refine ⟨h.1, ?_⟩
  have h2 := h.2 (by intro j bj hj; simp [merge_branch, mkInputs, okGit])
  rw [h2]
  rfl

/-- C1: when a branch's merge command reports failure and repository status
shows a conflicted path, the run prints the conflict guidance as its very
last act, terminates with exit status 1, and the merge just attempted,
number `pre.length + 1`, is the last one — no subsequent branch of the
sequence is attempted. -/
theorem c1_conflict_fail_fast (inp : Inputs) (label dest : String)
    (r : List String) (resp : ApiResponse) (pre post : List String)
    (b : String) (l : List Nat)
    (hargs : inp.args = label :: dest :: r) (henv : EnvOk inp)
    (htok : inp.configToken.isSome = true)
    (hf : inp.git.fetch = some true) (hc : inp.git.checkout = some true)
    (hnet : inp.net = .ok resp)
    (hbrs : branchesOf resp = pre ++ b :: post)
    (hpre : ∀ j bj, pre.get? j = some bj →
      (merge_branch inp.git j bj).2 = none)
    (hm : inp.git.merge pre.length = some false)
    (hs : inp.git.statuses pre.length = some l)
    (hconf : l.any isConflicted = true) :
    ∃ evs, main inp =
        (evs ++ [.print ("\nMerging " ++ b), .cmd (git_merge b), .statuses,
          .print conflictGuidance], .exited 1) ∧
      evs.filterMap mergeRef = pre.map (fun p => "origin/" ++ p) ∧
      ((main inp).1.filterMap mergeRef).length = pre.length + 1 := by
  have hpre0 : ∀ j bj, pre.get? j = some bj →
      (merge_branch inp.git (0 + j) bj).2 = none := by
    intro j bj hj
    simpa using hpre j bj hj
  obtain ⟨evs0, heq, hmr⟩ := mergeLoop_split inp.git pre 0 (b :: post) hpre0
  have hmb : merge_branch inp.git pre.length b =
      ([.cmd (git_merge b), .statuses, .print conflictGuidance],
       some (.exited 1)) := by
    simp [merge_branch, hm, hs, hconf]
  have hloop : mergeLoop inp.git pre.length (b :: post) =
      ([.print ("\nMerging " ++ b), .cmd (git_merge b), .statuses,
        .print conflictGuidance], .exited 1) :=
    mergeLoop_cons_halt inp.git pre.length b post _ _ hmb
  rw [main_eq_loop inp label dest r resp hargs henv htok hf hc hnet, hbrs,
    heq]
  simp only [Nat.zero_add]
  rw [hloop]
  refine ⟨[Event.cmd git_fetch, .cmd (git_checkout dest), .netResolve] ++
    evs0, ?_, ?_, ?_⟩
  · simp [List.append_assoc]
  · rw [filterMap_mergeRef_header, hmr]
  · rw [filterMap_mergeRef_header, List.filterMap_append, hmr]
    have h4 : ([Event.print ("\nMerging " ++ b), .cmd (git_merge b),
        .statuses, .print conflictGuidance]).filterMap mergeRef =
        ["origin/" ++ b] := rfl
    rw [h4]
    simp

/-- Witness for C1: one labeled branch whose merge fails conflicted; the
run performs fetch, checkout, resolution, one merge, the status query, the
guidance print, and exits 1. -/
theorem c1_witness :
    (∃ evs, main (mkInputs ["ready", "release"]
        (.ok (respOf [some ⟨"feature-a"⟩])) conflictGit) =
        (evs ++ [.print ("\nMerging " ++ "feature-a"),
          .cmd (git_merge "feature-a"), .statuses,
          .print conflictGuidance], .exited 1) ∧
      evs.filterMap mergeRef =
        ([] : List String).map (fun p => "origin/" ++ p) ∧
      ((main (mkInputs ["ready", "release"]
          (.ok (respOf [some ⟨"feature-a"⟩])) conflictGit)).1.filterMap
        mergeRef).length = ([] : List String).length + 1) ∧
    main (mkInputs ["ready", "release"]
        (.ok (respOf [some ⟨"feature-a"⟩])) conflictGit) =
      ([.cmd git_fetch, .cmd (git_checkout "release"), .netResolve,
        .print ("\nMerging " ++ "feature-a"), .cmd (git_merge "feature-a"),
        .statuses, .print conflictGuidance], .exited 1) := by
  refine ⟨c1_conflict_fail_fast
    (mkInputs ["ready", "release"] (.ok (respOf [some ⟨"feature-a"⟩]))
      conflictGit)
    "ready" "release" [] (respOf [some ⟨"feature-a"⟩]) [] [] "feature-a"
    [STATUS_CONFLICTED] rfl ⟨rfl, rfl, rfl, rfl, rfl⟩ rfl rfl rfl rfl rfl
    (by intro j bj hj; simp at hj) rfl rfl rfl, rfl⟩

/-- C2: when the merge command reports failure but repository status shows
no conflicted path (the distinction is made by the status query, which the
branch's event list contains), the run attempts a plain finalizing commit;
if the commit succeeds the loop continues with the next branch, and if it
fails the run prints a failure message naming the branch and terminates
with exit status 1. -/
theorem c2_no_conflict_plain_commit (w : GitWorld) (i : Nat) (b : String)
    (rest : List String) (l : List Nat)
    (hm : w.merge i = some false) (hs : w.statuses i = some l)
    (hnc : l.any isConflicted = false) :
    Event.statuses ∈ (merge_branch w i b).1 ∧
    Event.cmd git_commit ∈ (merge_branch w i b).1 ∧
    (w.commit i = some true →
      merge_branch w i b =
        ([.cmd (git_merge b), .statuses, .cmd git_commit], none) ∧
      mergeLoop w i (b :: rest) =
        (.print ("\nMerging " ++ b) ::
          [.cmd (git_merge b), .statuses, .cmd git_commit] ++
          (mergeLoop w (i + 1) rest).1,
         (mergeLoop w (i + 1) rest).2)) ∧
    (w.commit i = some false →
      merge_branch w i b =
        ([.cmd (git_merge b), .statuses, .cmd git_commit,
          .print ("Failure mergeing branch " ++ b)],
         some (.exited 1))) := by
  rcases hcm : w.commit i with _ | cb
  · have hmb : merge_branch w i b =
        ([.cmd (git_merge b), .statuses, .cmd git_commit],
         some (.panicked ("Failure merging branch " ++ b))) := by
      simp [merge_branch, hm, hs, hnc, hcm]
    refine ⟨by simp [hmb], by simp [hmb], ?_, ?_⟩ <;>
      · intro h
        simp at h
  · cases cb
    · have hmb : merge_branch w i b =
          ([.cmd (git_merge b), .statuses, .cmd git_commit,
            .print ("Failure mergeing branch " ++ b)],
           some (.exited 1)) := by
        simp [merge_branch, hm, hs, hnc, hcm]
      refine ⟨by simp [hmb], by simp [hmb], ?_, fun _ => hmb⟩
      intro h
      simp at h
    · have hmb : merge_branch w i b =
          ([.cmd (git_merge b), .statuses, .cmd git_commit], none) := by
        simp [merge_branch, hm, hs, hnc, hcm]
      refine ⟨by simp [hmb], by simp [hmb], fun _ => ⟨hmb, ?_⟩, ?_⟩
      · exact mergeLoop_cons_cont w i b rest _ hmb
      · intro h
        simp at h

/-- Witness for C2: a merge failure with a worktree-modified (256) but not
conflicted path, whose finalizing commit succeeds — the loop continues and
the whole sequence ends with exit status 0. -/
theorem c2_witness :
    (Event.statuses ∈ (merge_branch noConflictGit 0 "feature-a").1 ∧
     Event.cmd git_commit ∈ (merge_branch noConflictGit 0 "feature-a").1 ∧
     (noConflictGit.commit 0 = some true →
       merge_branch noConflictGit 0 "feature-a" =
         ([.cmd (git_merge "feature-a"), .statuses, .cmd git_commit],
          none) ∧
       mergeLoop noConflictGit 0 ["feature-a"] =
         (.print ("\nMerging " ++ "feature-a") ::
           [.cmd (git_merge "feature-a"), .statuses, .cmd git_commit] ++
           (mergeLoop noConflictGit 1 []).1,
          (mergeLoop noConflictGit 1 []).2)) ∧
     (noConflictGit.commit 0 = some false →
       merge_branch noConflictGit 0 "feature-a" =
         ([.cmd (git_merge "feature-a"), .statuses, .cmd git_commit,
           .print ("Failure mergeing branch " ++ "feature-a")],
          some (.exited 1)))) ∧
    (mergeLoop noConflictGit 0 ["feature-a"]).2 = .exited 0 :=
  ⟨c2_no_conflict_plain_commit noConflictGit 0 "feature-a" [] [256]
    rfl rfl rfl, rfl⟩

/-- C10: a path counts as conflicted only when its status flags equal the
CONFLICTED flag exactly; a status that combines CONFLICTED with any further
flag bit is not counted, and such a failed merge falls through to the plain
finalizing commit instead of the conflict path. -/
theorem c10_exact_flag_equality :
    (∀ s : Nat, isConflicted s = true ↔ s = STATUS_CONFLICTED) ∧
    (∀ k : Nat, k < 15 →
      isConflicted (STATUS_CONFLICTED + 2 ^ k) = false) ∧
    (∀ w i b l, w.merge i = some false → w.statuses i = some l →
      (∀ s, s ∈ l → s ≠ STATUS_CONFLICTED) →
      Event.cmd git_commit ∈ (merge_branch w i b).1 ∧
      Event.print conflictGuidance ∉ (merge_branch w i b).1) := by
  refine ⟨?_, ?_, ?_⟩
  · intro s
    simp [isConflicted]
  · intro k hk
    have hp : 0 < 2 ^ k := Nat.two_pow_pos k
    simp only [isConflicted, STATUS_CONFLICTED, beq_eq_false_iff_ne, ne_eq]
    omega
  · intro w i b l hm hs hnone
    have hnc : l.any isConflicted = false := by
      rw [List.any_eq_false]
      intro s hsl
      simpa [isConflicted] using hnone s hsl
    have hne := failure_msg_ne_guidance b
    rcases hcm : w.commit i with _ | cb
    · have hmb : merge_branch w i b =
          ([.cmd (git_merge b), .statuses, .cmd git_commit],
           some (.panicked ("Failure merging branch " ++ b))) := by
        simp [merge_branch, hm, hs, hnc, hcm]
      exact ⟨by simp [hmb], by simp [hmb]⟩
    · cases cb
      · have hmb : merge_branch w i b =
            ([.cmd (git_merge b), .statuses, .cmd git_commit,
              .print ("Failure mergeing branch " ++ b)],
             some (.exited 1)) := by
          simp [merge_branch, hm, hs, hnc, hcm]
        exact ⟨by simp [hmb], by simp [hmb, hne, hne.symm]⟩
      · have hmb : merge_branch w i b =
            ([.cmd (git_merge b), .statuses, .cmd git_commit], none) := by
          simp [merge_branch, hm, hs, hnc, hcm]
        exact ⟨by simp [hmb], by simp [hmb]⟩

/-- Witness for C10: a path whose status is CONFLICTED (32768) combined
with WT_MODIFIED (256) is not counted as conflicted; the failed merge falls
through to the commit path and no guidance is printed. -/
theorem c10_witness :
    isConflicted (STATUS_CONFLICTED + 2 ^ 8) = false ∧
    (Event.cmd git_commit ∈ (merge_branch mixedFlagGit 0 "feature-a").1 ∧
     Event.print conflictGuidance ∉
       (merge_branch mixedFlagGit 0 "feature-a").1) ∧
    merge_branch mixedFlagGit 0 "feature-a" =
      ([.cmd (git_merge "feature-a"), .statuses, .cmd git_commit], none) := by
  refine ⟨rfl, ?_, rfl⟩
  exact (c10_exact_flag_equality).2.2 mixedFlagGit 0 "feature-a"
    [STATUS_CONFLICTED + 256] rfl rfl (by decide)

/-- `main` when the checkout subprocess spawn fails (io error): the
surrounding `expect` panics after fetch and checkout, with no resolution
and no merge. -/
lemma main_checkout_ioerr (inp : Inputs) (label dest : String)
    (r : List String)
    (hargs : inp.args = label :: dest :: r) (henv : EnvOk inp)
    (htok : inp.configToken.isSome = true)
    (hf : inp.git.fetch = some true) (hc : inp.git.checkout = none) :
    main inp = ([.cmd git_fetch, .cmd (git_checkout dest)],
      .panicked ("Could not checkout branch " ++ dest)) := by
  obtain ⟨h1, h2, h3, h4, h5⟩ := henv
  obtain ⟨repo, hrepo⟩ := Option.isSome_iff_exists.mp h4
  obtain ⟨tok, htok2⟩ := Option.isSome_iff_exists.mp htok
  unfold main
  rw [hargs]
  simp [h1, h2, h3, hrepo, h5, htok2, hf, hc]

/-- C7: after a successful fetch, the run invokes
`git checkout --no-track -B <dest> origin/master` as its second external
call on every continuation — a create-or-reset (`-B`) of the caller-supplied
destination name at the remote default ref `origin/master` without upstream
tracking (`--no-track`); if the checkout reports failure, the run exits
with status 1 at once, before any resolution or merge event. -/
theorem c7_destination_checkout (inp : Inputs) (label dest : String)
    (r : List String)
    (hargs : inp.args = label :: dest :: r) (henv : EnvOk inp)
    (htok : inp.configToken.isSome = true)
    (hf : inp.git.fetch = some true) :
    git_checkout dest =
      ["checkout", "--no-track", "-B", dest, "origin/master"] ∧
    (main inp).1.take 2 = [.cmd git_fetch, .cmd (git_checkout dest)] ∧
    (inp.git.checkout = some false →
      main inp = ([.cmd git_fetch, .cmd (git_checkout dest)],
        .exited 1)) := by
  refine ⟨rfl, ?_, ?_⟩
  · rcases hc : inp.git.checkout with _ | cb
    · rw [main_checkout_ioerr inp label dest r hargs henv htok hf hc]
      rfl
    · cases cb
      · rw [main_checkout_fail inp label dest r hargs henv htok hf hc]
        rfl
      · rcases hnet : inp.net with e | resp
        · rw [main_net_error inp label dest r e hargs henv htok hf hc hnet]
          rfl
        · rw [main_eq_loop inp label dest r resp hargs henv htok hf hc hnet]
          rfl
  · intro hc
    exact main_checkout_fail inp label dest r hargs henv htok hf hc

/-- Witness for C7: with a failing checkout, the run performs exactly the
fetch and the checkout command and exits 1. -/
theorem c7_witness :
    git_checkout "release" =
      ["checkout", "--no-track", "-B", "release", "origin/master"] ∧
    (main (mkInputs ["ready", "release"] (.ok respNoRepo)
        checkoutFailGit)).1.take 2 =
      [.cmd git_fetch, .cmd (git_checkout "release")] ∧
    (checkoutFailGit.checkout = some false →
      main (mkInputs ["ready", "release"] (.ok respNoRepo)
          checkoutFailGit) =
        ([.cmd git_fetch, .cmd (git_checkout "release")], .exited 1)) :=
  c7_destination_checkout
    (mkInputs ["ready", "release"] (.ok respNoRepo) checkoutFailGit)
    "ready" "release" [] rfl ⟨rfl, rfl, rfl, rfl, rfl⟩ rfl rfl

/-- C8: when the credential key is absent from the configuration store the
run panics (terminating the process with the non-zero panic status) with an
empty trace: no network call and no git subprocess call was made. -/
theorem c8_missing_credential (inp : Inputs) (label dest : String)
    (r : List String)
    (hargs : inp.args = label :: dest :: r) (henv : EnvOk inp)
    (hnone : inp.configToken = none) :
    main inp = ([], .panicked
      "Could not find integrate.github-token in any git configuration file!") ∧
    (main inp).1 = [] ∧
    (main inp).2.exitCode ≠ 0 := by
  have h := main_no_token inp label dest r hargs henv hnone
  refine ⟨h, by rw [h], by rw [h]; decide⟩

/-- Witness for C8 at concrete inputs with no token configured. -/
theorem c8_witness :
    main inpNoToken = ([], .panicked
      "Could not find integrate.github-token in any git configuration file!") ∧
    (main inpNoToken).1 = [] ∧
    (main inpNoToken).2.exitCode ≠ 0 :=
  c8_missing_credential inpNoToken "ready" "release" [] rfl
    ⟨rfl, rfl, rfl, rfl, rfl⟩ rfl

/-- C9: every run performs the resolution call at most once, and whenever
it is performed the trace begins with exactly the fetch, the destination
checkout and the resolution call, in that order, and no later event is a
resolution call — the sequence is resolved exactly once, after fetch and
checkout and before any merge, and never re-queried mid-run. -/
theorem c9_resolved_exactly_once (inp : Inputs) :
    (main inp).1.countP isResolveEvent ≤ 1 ∧
    (∀ label dest r, inp.args = label :: dest :: r →
      Event.netResolve ∈ (main inp).1 →
      ∃ levs, (main inp).1 =
          [.cmd git_fetch, .cmd (git_checkout dest), .netResolve] ++ levs ∧
        levs.countP isResolveEvent = 0) := by
  rcases main_shape inp with h | h | ⟨l2, d2, r2, ha2, h⟩ |
    ⟨l2, d2, r2, levs, ha2, h, hcnt⟩
  · constructor
    · rw [h]
      simp
    · intro label dest r hargs hmem
      rw [h] at hmem
      simp at hmem
  · constructor
    · rw [h]
      decide
    · intro label dest r hargs hmem
      rw [h] at hmem
      simp at hmem
  · constructor
    · rw [h]
      simp [List.countP_cons, isResolveEvent]
    · intro label dest r hargs hmem
      rw [h] at hmem
      simp at hmem
  · constructor
    · rw [h]
      simp [List.countP_append, List.countP_cons, isResolveEvent, hcnt]
    · intro label dest r hargs hmem
      rw [hargs] at ha2
      cases ha2
      exact ⟨levs, h, hcnt⟩

/-- Witness for C9 on a clean two-branch run. -/
theorem c9_witness :
    (main (mkInputs ["ready", "release"]
        (.ok (respOf [some ⟨"feature-a"⟩, some ⟨"feature-b"⟩]))
        okGit)).1.countP isResolveEvent ≤ 1 ∧
    ∃ levs, (main (mkInputs ["ready", "release"]
        (.ok (respOf [some ⟨"feature-a"⟩, some ⟨"feature-b"⟩]))
        okGit)).1 =
        [.cmd git_fetch, .cmd (git_checkout "release"), .netResolve] ++
          levs ∧
      levs.countP isResolveEvent = 0 := by
  have h := c9_resolved_exactly_once
    (mkInputs ["ready", "release"]
      (.ok (respOf [some ⟨"feature-a"⟩, some ⟨"feature-b"⟩])) okGit)
  exact ⟨h.1, h.2 "ready" "release" [] rfl (by decide)⟩

/-- C6 counterexample: a missing argument is one of the fatal conditions
the claim covers, but the program terminates it by panicking, and a Rust
panic exits the process with status 101, not 1. -/
theorem c6_counterexample :
    (main inpNoArgs).2 = .panicked "No github label provided" ∧
    (main inpNoArgs).2.exitCode = 101 ∧
    ¬ (main inpNoArgs).2.exitCode = 1 :=
  ⟨rfl, rfl, by decide⟩

/-- C6 amended: fatal conditions detected through a subprocess exit status
(fetch failure, checkout failure, merge conflict, finalizing-commit
failure) terminate with exit status exactly 1; missing argument, missing
credential and resolution errors terminate by panic, whose process exit
status is 101, not 1. -/
theorem c6_amended_exit_codes (inp : Inputs) :
    (inp.args = [] → (main inp).2.exitCode = 101) ∧
    (∀ a, inp.args = [a] → (main inp).2.exitCode = 101) ∧
    (∀ label dest r, inp.args = label :: dest :: r → EnvOk inp →
      inp.configToken = none → (main inp).2.exitCode = 101) ∧
    (∀ label dest r, inp.args = label :: dest :: r → EnvOk inp →
      inp.configToken.isSome = true → inp.git.fetch = some false →
      (main inp).2 = .exited 1) ∧
    (∀ label dest r, inp.args = label :: dest :: r → EnvOk inp →
      inp.configToken.isSome = true → inp.git.fetch = some true →
      inp.git.checkout = some false → (main inp).2 = .exited 1) ∧
    (∀ label dest r e, inp.args = label :: dest :: r → EnvOk inp →
      inp.configToken.isSome = true → inp.git.fetch = some true →
      inp.git.checkout = some true → inp.net = .error e →
      (main inp).2.exitCode = 101) ∧
    (∀ i b rest l, inp.git.merge i = some false →
      inp.git.statuses i = some l → l.any isConflicted = true →
      (mergeLoop inp.git i (b :: rest)).2 = .exited 1) ∧
    (∀ i b rest l, inp.git.merge i = some false →
      inp.git.statuses i = some l → l.any isConflicted = false →
      inp.git.commit i = some false →
      (mergeLoop inp.git i (b :: rest)).2 = .exited 1) := by
  refine ⟨?_, ?_, ?_, ?_, ?_, ?_, ?_, ?_⟩
  · intro h
    rw [main_no_args inp h]
    rfl
  · intro a h
    rw [main_one_arg inp a h]
    rfl
  · intro label dest r hargs henv hnone
    rw [main_no_token inp label dest r hargs henv hnone]
    rfl
  · intro label dest r hargs henv htok hf
    rw [main_fetch_fail inp label dest r hargs henv htok hf]
  · intro label dest r hargs henv htok hf hc
    rw [main_checkout_fail inp label dest r hargs henv htok hf hc]
  · intro label dest r e hargs henv htok hf hc hnet
    rw [main_net_error inp label dest r e hargs henv htok hf hc hnet]
    rfl
  · intro i b rest l hm hs hconf
    have hmb : merge_branch inp.git i b =
        ([.cmd (git_merge b), .statuses, .print conflictGuidance],
         some (.exited 1)) := by
      simp [merge_branch, hm, hs, hconf]
    rw [mergeLoop_cons_halt inp.git i b rest _ _ hmb]
  · intro i b rest l hm hs hnc hcm
    have hmb : merge_branch inp.git i b =
        ([.cmd (git_merge b), .statuses, .cmd git_commit,
          .print ("Failure mergeing branch " ++ b)],
         some (.exited 1)) := by
      simp [merge_branch, hm, hs, hnc, hcm]
    rw [mergeLoop_cons_halt inp.git i b rest _ _ hmb]

/-- Witness for the amended C6: a failing fetch exits with status exactly
1, and a conflicted merge loop step exits with status exactly 1. -/
theorem c6_amended_witness :
    (main (mkInputs ["ready", "release"] (.ok respNoRepo)
      fetchFailGit)).2 = .exited 1 ∧
    (mergeLoop conflictGit 0 ["feature-a"]).2 = .exited 1 := by
  have h := c6_amended_exit_codes
    (mkInputs ["ready", "release"] (.ok respNoRepo) fetchFailGit)
  have h2 := c6_amended_exit_codes
    (mkInputs ["ready", "release"] (.ok respNoRepo) conflictGit)
  refine ⟨h.2.2.2.1 "ready" "release" [] rfl
    ⟨rfl, rfl, rfl, rfl, rfl⟩ rfl rfl, ?_⟩
  exact h2.2.2.2.2.2.2.1 0 "feature-a" [] [STATUS_CONFLICTED] rfl rfl rfl

end GitIntegrate
